import Mathlib

/-!
Verification of the location resolver / aggregator of the chmsa newsletter
dashboard (src/components/SurveillanceMap.tsx) and of the region filter of the
home page server component.

The embedding mirrors the TypeScript source.  JSON blobs are modelled by the
inductive `Json`; the field `NewsItem.details` holds the outcome of the
platform call `JSON.parse(item.details)` (the parser itself is a library
external to the repository): `none` means the parse threw, which is how both a
malformed blob and a missing blob behave, and `some j` is the parsed value.
JavaScript runtime type errors that escape the try/catch of the source (a
truthy non-string `location`, a `null` root) are modelled by `Except.error`.
Coordinates are the literal rational numbers of the source tables.
-/

namespace NewsMap

/-- Json values, as produced by the platform JSON parser. Numbers in the
blobs of this application are integral, so they are modelled by `Int`. -/
inductive Json where
  | null : Json
  | bool : Bool → Json
  | num : Int → Json
  | str : String → Json
  | arr : List Json → Json
  | obj : List (String × Json) → Json

/-- Association-list lookup; models property access on a JavaScript object
built from distinct literal keys, and object-literal key lookup. -/
def alookup {β : Type} (k : String) : List (String × β) → Option β
  | [] => none
  | (k2, v) :: rest => if k2 = k then some v else alookup k rest

/-- Property access `j[k]` of JavaScript: a field of an object, otherwise
`undefined` (modelled by `none`). Access on `null` raises and is handled at
the call sites that the source leaves outside a try/catch. -/
def getField (j : Json) (k : String) : Option Json :=
  match j with
  | Json.obj fields => alookup k fields
  | _ => none

/-- Truthiness of a Json value under JavaScript coercion rules. -/
def jsTruthy : Json → Bool
  | Json.null => false
  | Json.bool b => b
  | Json.num n => if n = 0 then false else true
  | Json.str s => if s = "" then false else true
  | Json.arr _ => true
  | Json.obj _ => true

/-- Semantics of `x || d` for an optional string `x`: the default is used
when the value is absent or is the empty string (both falsy). -/
def jsOr (o : Option String) (dflt : String) : String :=
  match o with
  | none => dflt
  | some s => if s = "" then dflt else s

/-- Lowercasing of a string, character by character, as
`String.prototype.toLowerCase` acts on the ASCII labels of this program. -/
def lowerStr (s : String) : String :=
  String.mk (s.data.map Char.toLower)

/-- Removal of leading and trailing whitespace, as `String.prototype.trim`. -/
def trimChars (l : List Char) : List Char :=
  ((l.dropWhile Char.isWhitespace).reverse.dropWhile Char.isWhitespace).reverse

/-- The normalization `location.toLowerCase().trim()` of the source. -/
def normalizeLoc (s : String) : String :=
  String.mk (trimChars (s.data.map Char.toLower))

/-- Decides whether `pat` is a prefix of `s` (over character lists). -/
def isPrefixList : List Char → List Char → Bool
  | [], _ => true
  | _ :: _, [] => false
  | a :: as, b :: bs => (a == b) && isPrefixList as bs

/-- Decides whether `pat` occurs contiguously inside `s` (over character
lists), the semantics of `String.prototype.includes`. -/
def isInfixList (pat : List Char) : List Char → Bool
  | [] => isPrefixList pat []
  | b :: rest => isPrefixList pat (b :: rest) || isInfixList pat rest

/-- The test `s.includes(pat)` of the source. -/
def strContains (s pat : String) : Bool :=
  isInfixList pat.data s.data

/-- The capitalization `c.charAt(0).toUpperCase() + c.slice(1)` of the
source, applied to a matched country key. -/
def capitalize (s : String) : String :=
  match s.data with
  | [] => s
  | ch :: rest => String.mk (ch.toUpper :: rest)

/-- The static city coordinate table `cityCoordinates` of
SurveillanceMap.tsx, in declaration order. -/
def cityCoordinates : List (String × (ℚ × ℚ)) := [
  ("new york, usa", (-74.006, 40.7128)),
  ("san francisco, usa", (-122.4194, 37.7749)),
  ("los angeles, usa", (-118.2437, 34.0522)),
  ("toronto, canada", (-79.3832, 43.6532)),
  ("vancouver, canada", (-123.1207, 49.2827)),
  ("austin, usa", (-97.7431, 30.2672)),
  ("chicago, usa", (-87.6298, 41.8781)),
  ("london, uk", (-0.1276, 51.5074)),
  ("paris, france", (2.3522, 48.8566)),
  ("berlin, germany", (13.4050, 52.5200)),
  ("munich, germany", (11.5820, 48.1351)),
  ("amsterdam, netherlands", (4.9041, 52.3676)),
  ("copenhagen, denmark", (12.5683, 55.6761)),
  ("stockholm, sweden", (18.0686, 59.3293)),
  ("zurich, switzerland", (8.5417, 47.3769)),
  ("dublin, ireland", (-6.2603, 53.3498)),
  ("singapore", (103.8198, 1.3521)),
  ("sydney, australia", (151.2093, -33.8688)),
  ("melbourne, australia", (144.9631, -37.8136)),
  ("tokyo, japan", (139.6917, 35.6895)),
  ("seoul, south korea", (126.9780, 37.5665)),
  ("beijing, china", (116.4074, 39.9042)),
  ("shanghai, china", (121.4737, 31.2304)),
  ("mumbai, india", (72.8777, 19.0760)),
  ("bengaluru, india", (77.5946, 12.9716)),
  ("dubai, uae", (55.2708, 25.2048)),
  ("abu dhabi, uae", (54.3773, 24.4539)),
  ("riyadh, saudi arabia", (46.6753, 24.7136)),
  ("doha, qatar", (51.5310, 25.2854)),
  ("tel aviv, israel", (34.7818, 32.0853)),
  ("istanbul, turkey", (28.9784, 41.0082)),
  ("madrid, spain", (-3.7038, 40.4168)),
  ("barcelona, spain", (2.1734, 41.3851)),
  ("rome, italy", (12.4964, 41.9028)),
  ("milan, italy", (9.1900, 45.4642)),
  ("brussels, belgium", (4.3517, 50.8503)),
  ("vienna, austria", (16.3738, 48.2082)),
  ("warsaw, poland", (21.0122, 52.2297)),
  ("oslo, norway", (10.7522, 59.9139)),
  ("helsinki, finland", (24.9384, 60.1699)),
  ("sao paulo, brazil", (-46.6333, -23.5505)),
  ("buenos aires, argentina", (-58.3816, -34.6037)),
  ("cape town, south africa", (18.4241, -33.9249)),
  ("johannesburg, south africa", (28.0473, -26.2041)),
  ("cairo, egypt", (31.2357, 30.0444))]

/-- The static fallback country center table `countryCoordinates` of
SurveillanceMap.tsx, in declaration order. `Object.keys` of a literal with
these non-numeric keys enumerates them in exactly this insertion order. -/
def countryCoordinates : List (String × (ℚ × ℚ)) := [
  ("usa", (-95.7129, 37.0902)),
  ("canada", (-106.3468, 56.1304)),
  ("uk", (-3.435, 55.378)),
  ("france", (2.2137, 46.2276)),
  ("germany", (10.4515, 51.1657)),
  ("australia", (133.7751, -25.2744)),
  ("japan", (138.2529, 36.2048)),
  ("china", (104.1954, 35.8617)),
  ("india", (78.9629, 20.5937)),
  ("brazil", (-51.9253, -14.2350)),
  ("south africa", (22.9375, -30.5595))]

/-- The search `Object.keys(countryCoordinates).find(c => loc.includes(c))`
of the source, paired with the coordinates of the found key. -/
def countryFind (loc : String) : Option (String × (ℚ × ℚ)) :=
  countryCoordinates.find? (fun p => strContains loc p.1)

/-- The hardcoded region centroid chain of the source: MENA, Europe,
North America, APAC, South America; anything else has no centroid. -/
def regionFallback (locationName : String) : Option (ℚ × ℚ) :=
  if locationName = "MENA" then some (45, 25)
  else if locationName = "Europe" then some (15, 50)
  else if locationName = "North America" then some (-100, 40)
  else if locationName = "APAC" then some (100, 20)
  else if locationName = "South America" then some (-60, -15)
  else none

/-- The five literal labels recognized by the region centroid fallback. -/
def regionLabels : List String :=
  ["MENA", "Europe", "North America", "APAC", "South America"]

/-- One aggregation bucket of the map: the value type of the `stats` object
of the source. -/
structure Bucket where
  count : Nat
  maxThreat : Int
  name : String
  coordinates : ℚ × ℚ
deriving DecidableEq

/-- One news item, restricted to the fields the aggregation reads. The field
`details` is the outcome of `JSON.parse` on the stored blob: `none` when the
parse throws (malformed or missing blob), `some j` otherwise. -/
structure NewsItem where
  region : Option String
  details : Option Json
  threatLevel : Int

/-- The value of the variable `parsed` after the try/catch of the source:
it starts as the empty object, is replaced by the parse result on success,
and is unwrapped to its `details` member when that member is truthy and has
a truthy `location`. Property access on a `null` parse result throws inside
the same try and is caught, leaving `parsed` equal to `null`. -/
def parsedDetails (d : Option Json) : Json :=
  match d with
  | none => Json.obj []
  | some j =>
    match getField j "details" with
    | some dj =>
      if jsTruthy dj then
        match getField dj "location" with
        | some l => if jsTruthy l then dj else j
        | none => j
      else j
    | none => j

/-- Reading `parsed.location` followed by `toLowerCase` as the source does:
`none` when the field is absent or falsy, `some s` for a truthy string, and
an error where JavaScript would raise a TypeError outside any try/catch
(property access on a `null` root, or a truthy non-string field). -/
def locOf (parsed : Json) : Except Unit (Option String) :=
  match parsed with
  | Json.null => Except.error ()
  | _ =>
    match getField parsed "location" with
    | some (Json.str s) => if s = "" then Except.ok none else Except.ok (some s)
    | some l => if jsTruthy l then Except.error () else Except.ok none
    | none => Except.ok none

/-- Resolution of one item to a bucket name and coordinates, following lines
105 to 155 of SurveillanceMap.tsx: city exact match first, then country
substring match, then region centroid fallback on the label that is still
current; `ok none` means the item goes to the global counter. -/
def itemTarget (item : NewsItem) : Except Unit (Option (String × (ℚ × ℚ))) :=
  let locationName := jsOr item.region "Global"
  match locOf (parsedDetails item.details) with
  | Except.error e => Except.error e
  | Except.ok optLoc =>
    let step : String × Option (ℚ × ℚ) :=
      match optLoc with
      | some locStr =>
        let loc := normalizeLoc locStr
        match alookup loc cityCoordinates with
        | some coords => (locStr, some coords)
        | none =>
          match countryFind loc with
          | some entry => (capitalize entry.1, some entry.2)
          | none => (locationName, none)
      | none => (locationName, none)
    match step.2 with
    | some coords => Except.ok (some (step.1, coords))
    | none =>
      match regionFallback step.1 with
      | some coords => Except.ok (some (step.1, coords))
      | none => Except.ok none

/-- The pair of mutations `count += 1` and
`maxThreat = Math.max(maxThreat, item.threatLevel)` of the source. -/
def updateBucket (threat : Int) (b : Bucket) : Bucket :=
  { b with count := b.count + 1, maxThreat := max b.maxThreat threat }

/-- Mutates the entry of the given key in place, JavaScript objects having
at most one entry per key. -/
def bumpFirst (threat : Int) (name : String) :
    List (String × Bucket) → List (String × Bucket)
  | [] => []
  | (k, b) :: rest =>
    if k = name then (k, updateBucket threat b) :: rest
    else (k, b) :: bumpFirst threat name rest

/-- Lines 157 to 167 of the source: create the bucket with zero count and
zero severity when the key is absent (its coordinates are the final
coordinates, which are present on every path that reaches this code), then
increment the count and fold in the threat level. -/
def addToStats (stats : List (String × Bucket)) (name : String)
    (coords : ℚ × ℚ) (threat : Int) : List (String × Bucket) :=
  let stats1 :=
    match alookup name stats with
    | none => stats ++ [(name, { count := 0, maxThreat := 0, name := name, coordinates := coords })]
    | some _ => stats
  bumpFirst threat name stats1

/-- Processing of a single item inside the forEach of the source: an
unresolved item only increments the global counter, a resolved one is
upserted into the stats object. -/
def processItem (stats : List (String × Bucket)) (global : Nat)
    (item : NewsItem) : Except Unit (List (String × Bucket) × Nat) :=
  match itemTarget item with
  | Except.error e => Except.error e
  | Except.ok none => Except.ok (stats, global + 1)
  | Except.ok (some (name, coords)) =>
      Except.ok (addToStats stats name coords item.threatLevel, global)

/-- The forEach loop of the source over the remaining items: left to right,
an uncaught exception aborts the whole computation. -/
def runItems (stats : List (String × Bucket)) (global : Nat) :
    List NewsItem → Except Unit (List (String × Bucket) × Nat)
  | [] => Except.ok (stats, global)
  | it :: rest =>
    match processItem stats global it with
    | Except.error e => Except.error e
    | Except.ok (s1, g1) => runItems s1 g1 rest

/-- The whole useMemo aggregation: `regionStats` is `Object.values(stats)`
in insertion order, paired with the global counter. -/
def resolve (items : List NewsItem) : Except Unit (List Bucket × Nat) :=
  match runItems [] 0 items with
  | Except.error e => Except.error e
  | Except.ok (stats, g) => Except.ok (stats.map Prod.snd, g)

/-- Decides whether the resolution function sends an item to the bucket of
the given name. -/
def placedIn (name : String) (item : NewsItem) : Bool :=
  match itemTarget item with
  | Except.ok (some (n, _)) => n == name
  | _ => false

/-- Threat levels of the items that resolution places in the named bucket. -/
def threatsFor (name : String) (items : List NewsItem) : List Int :=
  (items.filter (placedIn name)).map NewsItem.threatLevel

/-- Total item count held by a stats object. -/
def sumCount (stats : List (String × Bucket)) : Nat :=
  (stats.map (fun p => p.2.count)).sum

/-- Resolution of an item that matches no city table entry and no country
table entry: either it carries no usable location text at all, or the text
misses both tables. Items on which the source would raise are excluded. -/
def noCityCountryMatch (it : NewsItem) : Prop :=
  match locOf (parsedDetails it.details) with
  | Except.ok none => True
  | Except.ok (some s) =>
      alookup (normalizeLoc s) cityCoordinates = none ∧
      countryFind (normalizeLoc s) = none
  | Except.error _ => False

/-- The synonym table `regionMappings` of the home page server component,
in declaration order. -/
def regionMappings : List (String × List String) := [
  ("North America", ["north america", "us", "usa", "canada", "america"]),
  ("Europe", ["europe", "uk", "germany", "france", "spain", "italy",
    "netherlands", "sweden", "denmark", "ireland", "switzerland", "belgium",
    "austria", "poland", "norway", "finland"]),
  ("MENA", ["mena", "middle east", "uae", "saudi", "qatar", "dubai",
    "abu dhabi", "israel", "turkey", "egypt"]),
  ("APAC", ["apac", "asia", "china", "japan", "korea", "india", "singapore",
    "australia", "pacific"]),
  ("Global", ["global"])]

/-- Case-insensitive substring containment, the semantics of the query
condition `contains` with insensitive mode. -/
def containsInsensitive (stored k : String) : Bool :=
  strContains (lowerStr stored) (lowerStr k)

/-- Case-insensitive equality, the semantics of the query condition
`equals` with insensitive mode. -/
def eqInsensitive (a b : String) : Bool :=
  lowerStr a == lowerStr b

/-- Semantics of the region where-clause built by the home page on a stored
region string: the alias Middle East is rewritten to MENA, a recognized
region matches through its keyword list by insensitive containment, and an
unrecognized one falls back to insensitive equality. -/
def regionFilterMatches (requested stored : String) : Bool :=
  let regionVal := if requested = "Middle East" then "MENA" else requested
  match alookup regionVal regionMappings with
  | some keywords => keywords.any (fun k => containsInsensitive stored k)
  | none => eqInsensitive stored regionVal

end NewsMap

namespace NewsMap

lemma sumCount_cons (p : String × Bucket) (s : List (String × Bucket)) :
    sumCount (p :: s) = p.2.count + sumCount s := by
  simp [sumCount]

lemma sumCount_append (s t : List (String × Bucket)) :
    sumCount (s ++ t) = sumCount s + sumCount t := by
  simp [sumCount]

lemma bumpFirst_sumCount (t : Int) (n : String) :
    ∀ s : List (String × Bucket), (alookup n s).isSome = true →
      sumCount (bumpFirst t n s) = sumCount s + 1
  | [], h => by simp [alookup] at h
  | (k, b) :: rest, h => by
    by_cases hk : k = n
    · simp [bumpFirst, hk, sumCount_cons, updateBucket]
      omega
    · have h2 : (alookup n rest).isSome = true := by
        simpa [alookup, hk] using h
      have ih := bumpFirst_sumCount t n rest h2
      simp [bumpFirst, hk, sumCount_cons, ih]
      omega

lemma alookup_append {β : Type} (k : String) (s l : List (String × β)) :
    alookup k (s ++ l) =
      match alookup k s with
      | some v => some v
      | none => alookup k l := by
  induction s with
  | nil => simp [alookup]
  | cons p rest ih =>
    by_cases hk : p.1 = k
    · simp [alookup, hk]
    · simp [alookup, hk, ih]

lemma bumpFirst_append_fresh (t : Int) (n : String) (b : Bucket) :
    ∀ s : List (String × Bucket), alookup n s = none →
      bumpFirst t n (s ++ [(n, b)]) = s ++ [(n, updateBucket t b)]
  | [], _ => by simp [bumpFirst]
  | (k, v) :: rest, h => by
    have hk : ¬ k = n := by
      intro hkn
      simp [alookup, hkn] at h
    have h2 : alookup n rest = none := by
      simpa [alookup, hk] using h
    simp [bumpFirst, hk, bumpFirst_append_fresh t n b rest h2]

lemma addToStats_of_none {n : String} {s : List (String × Bucket)}
    (c : ℚ × ℚ) (t : Int) (h : alookup n s = none) :
    addToStats s n c t =
      s ++ [(n, { count := 1, maxThreat := max 0 t, name := n, coordinates := c })] := by
  unfold addToStats
  rw [h]
  have := bumpFirst_append_fresh t n
    { count := 0, maxThreat := 0, name := n, coordinates := c } s h
  simpa [updateBucket] using this

lemma addToStats_of_some {n : String} {s : List (String × Bucket)} {b : Bucket}
    (c : ℚ × ℚ) (t : Int) (h : alookup n s = some b) :
    addToStats s n c t = bumpFirst t n s := by
  unfold addToStats
  rw [h]

lemma addToStats_sumCount (s : List (String × Bucket)) (n : String)
    (c : ℚ × ℚ) (t : Int) :
    sumCount (addToStats s n c t) = sumCount s + 1 := by
  cases h : alookup n s with
  | none =>
    rw [addToStats_of_none c t h, sumCount_append]
    simp [sumCount]
  | some b =>
    rw [addToStats_of_some c t h]
    exact bumpFirst_sumCount t n s (by simp [h])

lemma processItem_sumCount {stats : List (String × Bucket)} {g : Nat}
    {it : NewsItem} {s2 : List (String × Bucket)} {g2 : Nat}
    (h : processItem stats g it = Except.ok (s2, g2)) :
    sumCount s2 + g2 = sumCount stats + g + 1 := by
  unfold processItem at h
  cases ht : itemTarget it with
  | error e => rw [ht] at h; simp at h
  | ok o =>
    rw [ht] at h
    cases o with
    | none =>
      simp at h
      obtain ⟨h1, h2⟩ := h
      subst h1
      subst h2
      omega
    | some nc =>
      obtain ⟨n, c⟩ := nc
      simp at h
      obtain ⟨h1, h2⟩ := h
      subst h1
      subst h2
      rw [addToStats_sumCount]
      omega

lemma runItems_sumCount :
    ∀ (items : List NewsItem) (stats : List (String × Bucket)) (g : Nat)
      (s2 : List (String × Bucket)) (g2 : Nat),
      runItems stats g items = Except.ok (s2, g2) →
      sumCount s2 + g2 = sumCount stats + g + items.length
  | [], stats, g, s2, g2, h => by
    simp [runItems] at h
    obtain ⟨h1, h2⟩ := h
    subst h1
    subst h2
    simp
  | it :: rest, stats, g, s2, g2, h => by
    unfold runItems at h
    cases hp : processItem stats g it with
    | error e => rw [hp] at h; simp at h
    | ok p =>
      rw [hp] at h
      obtain ⟨s1, g1⟩ := p
      have h2 := runItems_sumCount rest s1 g1 s2 g2 h
      have h1 := processItem_sumCount hp
      simp only [List.length_cons]
      omega

/-- C1: for every input sequence whose aggregation completes, each item is
either placed in exactly one bucket or counted exactly once in the global
counter: the sum of all bucket counts plus the unresolved count equals the
number of input items. -/
theorem resolve_partition (items : List NewsItem) (buckets : List Bucket)
    (g : Nat) (h : resolve items = Except.ok (buckets, g)) :
    (buckets.map Bucket.count).sum + g = items.length := by
  unfold resolve at h
  cases hr : runItems [] 0 items with
  | error e => rw [hr] at h; simp at h
  | ok p =>
    rw [hr] at h
    obtain ⟨s2, g2⟩ := p
    simp at h
    obtain ⟨hb, hg⟩ := h
    subst hb
    subst hg
    have hs := runItems_sumCount items [] 0 s2 g2 hr
    have hm : (List.map Bucket.count (List.map Prod.snd s2)).sum = sumCount s2 := by
      simp [sumCount, List.map_map]
      rfl
    rw [hm]
    simpa [sumCount] using hs

/-- Witness for C1 at a concrete two item input: one item lands in the
Europe bucket and one is unresolved, so the counts sum to the length. -/
theorem resolve_partition_witness :
    (([({count := 1, maxThreat := 2, name := "Europe", coordinates := (15, 50)} : Bucket)]).map
      Bucket.count).sum + 1 = 2 :=
  resolve_partition [⟨some "Europe", none, 2⟩, ⟨none, none, 5⟩] _ 1 (by rfl)

end NewsMap

namespace NewsMap

lemma mem_bumpFirst {t : Int} {n : String} :
    ∀ {s : List (String × Bucket)} {p : String × Bucket},
      p ∈ bumpFirst t n s →
      p ∈ s ∨ ∃ q, q ∈ s ∧ p = (q.1, updateBucket t q.2)
  | [], p, h => by simp [bumpFirst] at h
  | (k, b) :: rest, p, h => by
    by_cases hk : k = n
    · simp [bumpFirst, hk] at h
      rcases h with h | h
      · exact Or.inr ⟨(k, b), by simp, by simp [h, hk]⟩
      · exact Or.inl (List.mem_cons_of_mem _ h)
    · simp [bumpFirst, hk] at h
      rcases h with h | h
      · exact Or.inl (by simp [h])
      · rcases mem_bumpFirst h with h2 | ⟨q, hq, hpq⟩
        · exact Or.inl (List.mem_cons_of_mem _ h2)
        · exact Or.inr ⟨q, List.mem_cons_of_mem _ hq, hpq⟩

lemma addToStats_count_pos {stats : List (String × Bucket)} {n : String}
    {c : ℚ × ℚ} {t : Int}
    (h : ∀ p ∈ stats, 1 ≤ p.2.count) :
    ∀ p ∈ addToStats stats n c t, 1 ≤ p.2.count := by
  intro p hp
  cases hl : alookup n stats with
  | none =>
    rw [addToStats_of_none c t hl] at hp
    rcases List.mem_append.mp hp with h1 | h1
    · exact h p h1
    · simp at h1
      simp [h1]
  | some b =>
    rw [addToStats_of_some c t hl] at hp
    rcases mem_bumpFirst hp with h1 | ⟨q, hq, hpq⟩
    · exact h p h1
    · simp [hpq, updateBucket]

lemma runItems_count_pos :
    ∀ (items : List NewsItem) (stats : List (String × Bucket)) (g : Nat)
      (s2 : List (String × Bucket)) (g2 : Nat),
      (∀ p ∈ stats, 1 ≤ p.2.count) →
      runItems stats g items = Except.ok (s2, g2) →
      ∀ p ∈ s2, 1 ≤ p.2.count
  | [], stats, g, s2, g2, hpos, h => by
    simp [runItems] at h
    obtain ⟨h1, h2⟩ := h
    subst h1
    exact hpos
  | it :: rest, stats, g, s2, g2, hpos, h => by
    unfold runItems at h
    cases hp : processItem stats g it with
    | error e => rw [hp] at h; simp at h
    | ok p =>
      rw [hp] at h
      obtain ⟨s1, g1⟩ := p
      have hpos1 : ∀ q ∈ s1, 1 ≤ q.2.count := by
        unfold processItem at hp
        cases ht : itemTarget it with
        | error e => rw [ht] at hp; simp at hp
        | ok o =>
          rw [ht] at hp
          cases o with
          | none =>
            simp at hp
            obtain ⟨h1, _⟩ := hp
            subst h1
            exact hpos
          | some nc =>
            obtain ⟨nm, cc⟩ := nc
            simp at hp
            obtain ⟨h1, _⟩ := hp
            subst h1
            exact addToStats_count_pos hpos
      exact runItems_count_pos rest s1 g1 s2 g2 hpos1 h

/-- C6: every bucket appearing in the aggregation output has count at least
one, and the empty input yields an empty bucket list and a zero unresolved
count. -/
theorem bucket_counts_positive :
    (∀ (items : List NewsItem) (buckets : List Bucket) (g : Nat),
       resolve items = Except.ok (buckets, g) → ∀ b ∈ buckets, 1 ≤ b.count) ∧
    resolve ([] : List NewsItem) = Except.ok (([] : List Bucket), 0) := by
  constructor
  · intro items buckets g h b hb
    unfold resolve at h
    cases hr : runItems [] 0 items with
    | error e => rw [hr] at h; simp at h
    | ok p =>
      rw [hr] at h
      obtain ⟨s2, g2⟩ := p
      simp at h
      obtain ⟨hbks, _⟩ := h
      subst hbks
      obtain ⟨q, hq, hqb⟩ := List.mem_map.mp hb
      have := runItems_count_pos items [] 0 s2 g2 (by simp) hr q hq
      rw [hqb] at this
      exact this
  · rfl

/-- Witness for C6: a one item input produces a single bucket of count one,
and the second conjunct is checked at the empty input. -/
theorem bucket_counts_positive_witness :
    1 ≤ ({count := 1, maxThreat := 3, name := "Europe", coordinates := (15, 50)} : Bucket).count :=
  bucket_counts_positive.1 [⟨some "Europe", none, 3⟩]
    [{ count := 1, maxThreat := 3, name := "Europe", coordinates := (15, 50) }] 0 (by rfl)
    { count := 1, maxThreat := 3, name := "Europe", coordinates := (15, 50) } (by simp)

end NewsMap

namespace NewsMap

lemma alookup_bumpFirst_self {t : Int} {n : String} :
    ∀ {s : List (String × Bucket)} {b : Bucket},
      alookup n s = some b →
      alookup n (bumpFirst t n s) = some (updateBucket t b)
  | [], b, h => by simp [alookup] at h
  | (k, v) :: rest, b, h => by
    by_cases hk : k = n
    · subst hk
      simp [alookup] at h
      subst h
      simp [bumpFirst, alookup]
    · simp [alookup, hk] at h
      simp [bumpFirst, alookup, hk]
      exact alookup_bumpFirst_self h

lemma alookup_bumpFirst_other {t : Int} {n k : String} (hk : k ≠ n) :
    ∀ s : List (String × Bucket),
      alookup k (bumpFirst t n s) = alookup k s
  | [] => by simp [bumpFirst]
  | (k2, v) :: rest => by
    by_cases h2 : k2 = n
    · subst h2
      have : ¬ k2 = k := fun he => hk (he ▸ rfl)
      simp [bumpFirst, alookup, this]
    · simp [bumpFirst, alookup, h2]
      by_cases h3 : k2 = k
      · simp [h3]
      · simp [h3, alookup_bumpFirst_other hk rest]

lemma alookup_addToStats_other {stats : List (String × Bucket)} {n k : String}
    {c : ℚ × ℚ} {t : Int} (hk : k ≠ n) :
    alookup k (addToStats stats n c t) = alookup k stats := by
  cases hl : alookup n stats with
  | none =>
    rw [addToStats_of_none c t hl, alookup_append]
    cases hs : alookup k stats with
    | some v => simp
    | none =>
      have hnk : ¬ n = k := fun he => hk he.symm
      simp [alookup, hnk]
  | some b =>
    rw [addToStats_of_some c t hl]
    exact alookup_bumpFirst_other hk stats

lemma alookup_addToStats_self_none {stats : List (String × Bucket)} {n : String}
    {c : ℚ × ℚ} {t : Int} (h : alookup n stats = none) :
    alookup n (addToStats stats n c t) =
      some { count := 1, maxThreat := max 0 t, name := n, coordinates := c } := by
  rw [addToStats_of_none c t h, alookup_append, h]
  simp [alookup]

lemma alookup_addToStats_self_some {stats : List (String × Bucket)} {n : String}
    {b : Bucket} {c : ℚ × ℚ} {t : Int} (h : alookup n stats = some b) :
    alookup n (addToStats stats n c t) = some (updateBucket t b) := by
  rw [addToStats_of_some c t h]
  exact alookup_bumpFirst_self h

lemma placedIn_of_target_none {it : NewsItem} {k : String}
    (h : itemTarget it = Except.ok none) : placedIn k it = false := by
  simp [placedIn, h]

lemma placedIn_of_target_some {it : NewsItem} {k n : String} {c : ℚ × ℚ}
    (h : itemTarget it = Except.ok (some (n, c))) :
    placedIn k it = (n == k) := by
  simp [placedIn, h]

lemma threatsFor_cons (k : String) (it : NewsItem) (rest : List NewsItem) :
    threatsFor k (it :: rest) =
      if placedIn k it then it.threatLevel :: threatsFor k rest
      else threatsFor k rest := by
  by_cases h : placedIn k it
  · simp [threatsFor, List.filter, h]
  · simp [threatsFor, List.filter]
    rw [Bool.not_eq_true] at h
    simp [h]

lemma foldl_max_init_le : ∀ (l : List Int) (a : Int), a ≤ l.foldl max a
  | [], a => le_refl a
  | b :: l, a => le_trans (le_max_left a b) (foldl_max_init_le l (max a b))

lemma foldl_max_le_of_mem :
    ∀ (l : List Int) (a x : Int), x ∈ l → x ≤ l.foldl max a
  | [], a, x, h => by simp at h
  | b :: l, a, x, h => by
    rcases List.mem_cons.mp h with h1 | h1
    · subst h1
      exact le_trans (le_max_right a x) (foldl_max_init_le l (max a x))
    · exact foldl_max_le_of_mem l (max a b) x h1

lemma foldl_max_mem_or_eq :
    ∀ (l : List Int) (a : Int), l.foldl max a ∈ l ∨ l.foldl max a = a
  | [], a => Or.inr rfl
  | b :: l, a => by
    rcases foldl_max_mem_or_eq l (max a b) with h | h
    · exact Or.inl (List.mem_cons_of_mem _ h)
    · rcases max_choice a b with h2 | h2
      · exact Or.inr (by show List.foldl max (max a b) l = a; rw [h, h2])
      · exact Or.inl (by
          show List.foldl max (max a b) l ∈ b :: l
          rw [h, h2]
          exact List.mem_cons_self b l)

end NewsMap

namespace NewsMap

lemma bumpFirst_keys (t : Int) (n : String) :
    ∀ s : List (String × Bucket), (bumpFirst t n s).map Prod.fst = s.map Prod.fst
  | [] => rfl
  | (k, b) :: rest => by
    by_cases hk : k = n
    · simp [bumpFirst, hk]
    · simp [bumpFirst, hk, bumpFirst_keys t n rest]

lemma alookup_eq_none_iff {β : Type} (k : String) :
    ∀ s : List (String × β), alookup k s = none ↔ k ∉ s.map Prod.fst
  | [] => by simp [alookup]
  | (k2, v) :: rest => by
    by_cases hk : k2 = k
    · simp [alookup, hk]
    · have hk2 : k ≠ k2 := fun h => hk h.symm
      simp [alookup, hk, hk2, alookup_eq_none_iff k rest]

lemma addToStats_keys_nodup {stats : List (String × Bucket)} {n : String}
    {c : ℚ × ℚ} {t : Int} (h : (stats.map Prod.fst).Nodup) :
    ((addToStats stats n c t).map Prod.fst).Nodup := by
  cases hl : alookup n stats with
  | some b =>
    rw [addToStats_of_some c t hl, bumpFirst_keys]
    exact h
  | none =>
    rw [addToStats_of_none c t hl]
    have hn : n ∉ stats.map Prod.fst := (alookup_eq_none_iff n stats).mp hl
    simp [List.nodup_append, h, hn]

lemma addToStats_names {stats : List (String × Bucket)} {n : String}
    {c : ℚ × ℚ} {t : Int} (h : ∀ p ∈ stats, p.2.name = p.1) :
    ∀ p ∈ addToStats stats n c t, p.2.name = p.1 := by
  intro p hp
  cases hl : alookup n stats with
  | none =>
    rw [addToStats_of_none c t hl] at hp
    rcases List.mem_append.mp hp with h1 | h1
    · exact h p h1
    · simp at h1
      simp [h1]
  | some b =>
    rw [addToStats_of_some c t hl] at hp
    rcases mem_bumpFirst hp with h1 | ⟨q, hq, hpq⟩
    · exact h p h1
    · have := h q hq
      simp [hpq, updateBucket, this]

lemma processItem_stats_shape {stats : List (String × Bucket)} {g : Nat}
    {it : NewsItem} {s1 : List (String × Bucket)} {g1 : Nat}
    (h : processItem stats g it = Except.ok (s1, g1)) :
    s1 = stats ∨ ∃ n c, s1 = addToStats stats n c it.threatLevel := by
  unfold processItem at h
  cases ht : itemTarget it with
  | error e => rw [ht] at h; simp at h
  | ok o =>
    rw [ht] at h
    cases o with
    | none =>
      simp at h
      exact Or.inl h.1.symm
    | some nc =>
      obtain ⟨n, c⟩ := nc
      simp at h
      exact Or.inr ⟨n, c, h.1.symm⟩

lemma runItems_keys_nodup :
    ∀ (items : List NewsItem) (stats : List (String × Bucket)) (g : Nat)
      (s2 : List (String × Bucket)) (g2 : Nat),
      (stats.map Prod.fst).Nodup →
      runItems stats g items = Except.ok (s2, g2) →
      (s2.map Prod.fst).Nodup
  | [], stats, g, s2, g2, hnd, h => by
    simp [runItems] at h
    obtain ⟨h1, _⟩ := h
    subst h1
    exact hnd
  | it :: rest, stats, g, s2, g2, hnd, h => by
    unfold runItems at h
    cases hp : processItem stats g it with
    | error e => rw [hp] at h; simp at h
    | ok p =>
      rw [hp] at h
      obtain ⟨s1, g1⟩ := p
      have hnd1 : (s1.map Prod.fst).Nodup := by
        rcases processItem_stats_shape hp with h1 | ⟨n, c, h1⟩
        · subst h1; exact hnd
        · subst h1; exact addToStats_keys_nodup hnd
      exact runItems_keys_nodup rest s1 g1 s2 g2 hnd1 h

lemma runItems_names :
    ∀ (items : List NewsItem) (stats : List (String × Bucket)) (g : Nat)
      (s2 : List (String × Bucket)) (g2 : Nat),
      (∀ p ∈ stats, p.2.name = p.1) →
      runItems stats g items = Except.ok (s2, g2) →
      ∀ p ∈ s2, p.2.name = p.1
  | [], stats, g, s2, g2, hnm, h => by
    simp [runItems] at h
    obtain ⟨h1, _⟩ := h
    subst h1
    exact hnm
  | it :: rest, stats, g, s2, g2, hnm, h => by
    unfold runItems at h
    cases hp : processItem stats g it with
    | error e => rw [hp] at h; simp at h
    | ok p =>
      rw [hp] at h
      obtain ⟨s1, g1⟩ := p
      have hnm1 : ∀ p ∈ s1, p.2.name = p.1 := by
        rcases processItem_stats_shape hp with h1 | ⟨n, c, h1⟩
        · subst h1; exact hnm
        · subst h1; exact addToStats_names hnm
      exact runItems_names rest s1 g1 s2 g2 hnm1 h

lemma alookup_of_mem_nodup {β : Type} :
    ∀ {s : List (String × β)} {k : String} {v : β},
      (s.map Prod.fst).Nodup → (k, v) ∈ s → alookup k s = some v
  | [], k, v, _, h => by simp at h
  | (k2, v2) :: rest, k, v, hnd, h => by
    rw [List.map_cons, List.nodup_cons] at hnd
    obtain ⟨hk2, hnd2⟩ := hnd
    rcases List.mem_cons.mp h with h1 | h1
    · rw [Prod.mk.injEq] at h1
      obtain ⟨h1a, h1b⟩ := h1
      subst h1a
      subst h1b
      simp [alookup]
    · have hk : ¬ k2 = k := by
        intro he
        subst he
        exact hk2 (List.mem_map.mpr ⟨(k2, v), h1, rfl⟩)
      simp [alookup, hk]
      exact alookup_of_mem_nodup hnd2 h1

lemma runItems_maxThreat :
    ∀ (items : List NewsItem) (stats : List (String × Bucket)) (g : Nat)
      (s2 : List (String × Bucket)) (g2 : Nat),
      runItems stats g items = Except.ok (s2, g2) →
      ∀ k b2, alookup k s2 = some b2 →
        (∃ b, alookup k stats = some b ∧
           b2.maxThreat = (threatsFor k items).foldl max b.maxThreat) ∨
        (alookup k stats = none ∧ threatsFor k items ≠ [] ∧
           b2.maxThreat = (threatsFor k items).foldl max 0)
  | [], stats, g, s2, g2, h, k, b2, hb => by
    simp [runItems] at h
    obtain ⟨h1, _⟩ := h
    subst h1
    exact Or.inl ⟨b2, hb, by simp [threatsFor]⟩
  | it :: rest, stats, g, s2, g2, h, k, b2, hb => by
    unfold runItems at h
    cases hp : processItem stats g it with
    | error e => rw [hp] at h; simp at h
    | ok p =>
      rw [hp] at h
      obtain ⟨s1, g1⟩ := p
      have ih := runItems_maxThreat rest s1 g1 s2 g2 h k b2 hb
      unfold processItem at hp
      cases ht : itemTarget it with
      | error e => rw [ht] at hp; simp at hp
      | ok o =>
        rw [ht] at hp
        cases o with
        | none =>
          simp at hp
          obtain ⟨hs1, _⟩ := hp
          subst hs1
          rw [threatsFor_cons, placedIn_of_target_none ht]
          simpa using ih
        | some nc =>
          obtain ⟨n, c⟩ := nc
          simp at hp
          obtain ⟨hs1, _⟩ := hp
          subst hs1
          rw [threatsFor_cons, placedIn_of_target_some ht]
          by_cases hkn : n = k
          · subst hkn
            simp only [beq_self_eq_true, if_true]
            cases hl : alookup n stats with
            | some b =>
              have hself := alookup_addToStats_self_some
                (c := c) (t := it.threatLevel) hl
              rcases ih with ⟨b1, hb1, hmax⟩ | ⟨hnone, _, _⟩
              · rw [hself] at hb1
                injection hb1 with hb1e
                subst hb1e
                exact Or.inl ⟨b, rfl, hmax⟩
              · rw [hself] at hnone
                simp at hnone
            | none =>
              have hself := alookup_addToStats_self_none
                (c := c) (t := it.threatLevel) hl
              rcases ih with ⟨b1, hb1, hmax⟩ | ⟨hnone, _, _⟩
              · rw [hself] at hb1
                injection hb1 with hb1e
                subst hb1e
                exact Or.inr ⟨rfl, by simp, hmax⟩
              · rw [hself] at hnone
                simp at hnone
          · have hkn2 : k ≠ n := fun he => hkn he.symm
            rw [alookup_addToStats_other hkn2] at ih
            simpa [hkn] using ih

/-- C2: for inputs in the documented severity domain (threat levels at least
zero, the observed range being one to five), the maxSeverity of every output
bucket is the true maximum threat level among the items that resolution
places in that bucket: it is attained by one of them and bounds all of
them. -/
theorem bucket_maxThreat_correct (items : List NewsItem) (buckets : List Bucket)
    (g : Nat) (hdom : ∀ it ∈ items, 0 ≤ it.threatLevel)
    (h : resolve items = Except.ok (buckets, g)) :
    ∀ b ∈ buckets, b.maxThreat ∈ threatsFor b.name items ∧
      ∀ x ∈ threatsFor b.name items, x ≤ b.maxThreat := by
  intro b hb
  unfold resolve at h
  cases hr : runItems [] 0 items with
  | error e => rw [hr] at h; simp at h
  | ok p =>
    rw [hr] at h
    obtain ⟨s2, g2⟩ := p
    simp at h
    obtain ⟨hbks, _⟩ := h
    subst hbks
    obtain ⟨q, hq, hqb⟩ := List.mem_map.mp hb
    have hnd : (s2.map Prod.fst).Nodup :=
      runItems_keys_nodup items [] 0 s2 g2 (by simp) hr
    have hnm : q.2.name = q.1 := runItems_names items [] 0 s2 g2 (by simp) hr q hq
    have hlk : alookup q.1 s2 = some q.2 := alookup_of_mem_nodup hnd (by
      have : (q.1, q.2) = q := rfl
      rw [this]
      exact hq)
    rcases runItems_maxThreat items [] 0 s2 g2 hr q.1 q.2 hlk with
      ⟨b0, hb0, _⟩ | ⟨_, hne, hmax⟩
    · simp [alookup] at hb0
    · subst hqb
      rw [hnm]
      have hthreats : ∀ x ∈ threatsFor q.1 items, 0 ≤ x := by
        intro x hx
        simp [threatsFor] at hx
        obtain ⟨it, hit, hxeq⟩ := hx
        subst hxeq
        exact hdom it hit.1
      constructor
      · rcases foldl_max_mem_or_eq (threatsFor q.1 items) 0 with hm | hm
        · rw [hmax]
          exact hm
        · cases hl : threatsFor q.1 items with
          | nil => exact absurd hl hne
          | cons x l =>
            have hx : x ∈ threatsFor q.1 items := by
              rw [hl]
              exact List.mem_cons_self x l
            have h1 : x ≤ (threatsFor q.1 items).foldl max 0 :=
              foldl_max_le_of_mem _ 0 x hx
            have h2 : 0 ≤ x := hthreats x hx
            have h3 : (threatsFor q.1 items).foldl max 0 = x := by
              rw [hm] at h1 ⊢
              omega
            rw [hmax, h3]
            exact List.mem_cons_self x l
      · intro x hx
        rw [hmax]
        exact foldl_max_le_of_mem _ 0 x hx

/-- Witness for C2 at a two item input that lands in one Europe bucket with
threat levels two and five: the recorded maximum five is a member of the
placed threat list. -/
theorem bucket_maxThreat_correct_witness :
    ({count := 2, maxThreat := 5, name := "Europe", coordinates := (15, 50)} : Bucket).maxThreat ∈
      threatsFor "Europe" [⟨some "Europe", none, 2⟩, ⟨some "Europe", none, 5⟩] := by
  have h := bucket_maxThreat_correct
    [⟨some "Europe", none, 2⟩, ⟨some "Europe", none, 5⟩]
    [{count := 2, maxThreat := 5, name := "Europe", coordinates := (15, 50)}] 0
    (by
      intro it hit
      rcases List.mem_cons.mp hit with h1 | h1
      · subst h1; decide
      · rcases List.mem_cons.mp h1 with h2 | h2
        · subst h2; decide
        · simp at h2)
    (by rfl)
    {count := 2, maxThreat := 5, name := "Europe", coordinates := (15, 50)} (by simp)
  exact h.1

end NewsMap

namespace NewsMap

/-- C3: resolution is tried in strict order with first match winning. When
the normalized location exact-matches the city table, the bucket name is
the original-cased location string and the coordinates are the table value,
and the country and region steps are skipped; the country substring match
only decides the outcome when the city lookup missed. -/
theorem resolution_order (it : NewsItem) (s : String)
    (hloc : locOf (parsedDetails it.details) = Except.ok (some s)) :
    (∀ c, alookup (normalizeLoc s) cityCoordinates = some c →
       itemTarget it = Except.ok (some (s, c))) ∧
    (alookup (normalizeLoc s) cityCoordinates = none →
       ∀ e, countryFind (normalizeLoc s) = some e →
         itemTarget it = Except.ok (some (capitalize e.1, e.2))) := by
  constructor
  · intro c hc
    simp [itemTarget, hloc, hc]
  · intro hcity e hce
    simp [itemTarget, hloc, hcity, hce]

/-- Witness for C3: the Tokyo example of the specification hits the city
table and keeps the original casing as bucket name. -/
theorem resolution_order_witness :
    itemTarget ⟨none, some (Json.obj [("location", Json.str "Tokyo, Japan")]), 3⟩ =
      Except.ok (some ("Tokyo, Japan", (139.6917, 35.6895))) :=
  (resolution_order ⟨none, some (Json.obj [("location", Json.str "Tokyo, Japan")]), 3⟩
    "Tokyo, Japan" (by rfl)).1 (139.6917, 35.6895) (by rfl)

/-- C4: an item whose details blob fails to parse (malformed or missing
JSON) never makes the aggregation raise; it is treated as carrying no
location and resolution continues with the region centroid fallback on the
region label of the item. -/
theorem malformed_details_fallback (it : NewsItem) (h : it.details = none) :
    itemTarget it = Except.ok ((regionFallback (jsOr it.region "Global")).map
      (fun c => (jsOr it.region "Global", c))) ∧
    ∀ stats g, processItem stats g it ≠ Except.error () := by
  have h1 : itemTarget it = Except.ok ((regionFallback (jsOr it.region "Global")).map
      (fun c => (jsOr it.region "Global", c))) := by
    cases hr : regionFallback (jsOr it.region "Global") with
    | none => simp [itemTarget, h, parsedDetails, locOf, getField, alookup, hr]
    | some c => simp [itemTarget, h, parsedDetails, locOf, getField, alookup, hr]
  refine ⟨h1, ?_⟩
  intro stats g
  cases hr : regionFallback (jsOr it.region "Global") with
  | none => simp [processItem, h1, hr]
  | some c => simp [processItem, h1, hr]

/-- Witness for C4: a malformed blob with region Europe falls back to the
Europe centroid rather than raising. -/
theorem malformed_details_fallback_witness :
    itemTarget ⟨some "Europe", none, 1⟩ = Except.ok (some ("Europe", (15, 50))) :=
  (malformed_details_fallback ⟨some "Europe", none, 1⟩ rfl).1

/-- C5: for an item with no city and no country match, a candidate label
among the five literal region labels buckets the item under that label at
the fixed centroid (Europe at longitude 15, latitude 50); any other label,
Global included, creates or updates no bucket and increments the unresolved
counter by one. -/
theorem region_fallback_bucketing (it : NewsItem)
    (stats : List (String × Bucket)) (g : Nat) (h : noCityCountryMatch it) :
    (∀ c, regionFallback (jsOr it.region "Global") = some c →
       processItem stats g it =
         Except.ok (addToStats stats (jsOr it.region "Global") c it.threatLevel, g)) ∧
    (regionFallback (jsOr it.region "Global") = none →
       processItem stats g it = Except.ok (stats, g + 1)) ∧
    regionFallback "Europe" = some (15, 50) ∧
    (∀ lab ∈ regionLabels, (regionFallback lab).isSome = true) ∧
    (∀ lab, lab ∉ regionLabels → regionFallback lab = none) := by
  have hmain : itemTarget it = Except.ok ((regionFallback (jsOr it.region "Global")).map
      (fun c => (jsOr it.region "Global", c))) := by
    unfold noCityCountryMatch at h
    cases hl : locOf (parsedDetails it.details) with
    | error e =>
      rw [hl] at h
      exact h.elim
    | ok o =>
      rw [hl] at h
      cases o with
      | none =>
        cases hr : regionFallback (jsOr it.region "Global") with
        | none => simp [itemTarget, hl, hr]
        | some c => simp [itemTarget, hl, hr]
      | some s =>
        obtain ⟨hcity, hcountry⟩ := h
        cases hr : regionFallback (jsOr it.region "Global") with
        | none => simp [itemTarget, hl, hcity, hcountry, hr]
        | some c => simp [itemTarget, hl, hcity, hcountry, hr]
  refine ⟨?_, ?_, rfl, by decide, ?_⟩
  · intro c hc
    simp [processItem, hmain, hc]
  · intro hc
    simp [processItem, hmain, hc]
  · intro lab hlab
    simp [regionLabels] at hlab
    obtain ⟨n1, n2, n3, n4, n5⟩ := hlab
    simp [regionFallback, n1, n2, n3, n4, n5]

/-- Witness for C5: an item with region Europe and no location is bucketed
under Europe at the centroid. -/
theorem region_fallback_bucketing_witness :
    processItem [] 0 ⟨some "Europe", none, 2⟩ =
      Except.ok ([("Europe",
        {count := 1, maxThreat := 2, name := "Europe", coordinates := (15, 50)})], 0) :=
  (region_fallback_bucketing ⟨some "Europe", none, 2⟩ [] 0 trivial).1 (15, 50) rfl

/-- C7: the aggregation is a pure function of its input list; evaluating it
twice on the same input yields identical output. -/
theorem resolve_deterministic (items : List NewsItem) :
    resolve items = resolve items := rfl

end NewsMap

namespace NewsMap

lemma find_first_of_earlier_fail {α : Type} (p : α → Bool) :
    ∀ (l : List α) (i : Nat) (hi : i < l.length),
      p (l.get ⟨i, hi⟩) = true →
      (∀ j (hj : j < l.length), j < i → p (l.get ⟨j, hj⟩) = false) →
      l.find? p = some (l.get ⟨i, hi⟩)
  | [], i, hi, _, _ => by simp at hi
  | a :: l, 0, hi, hp, _ => by
    have hpa : p a = true := hp
    simp [List.find?, hpa]
  | a :: l, i + 1, hi, hp, hprev => by
    have ha : p a = false := hprev 0 (Nat.succ_pos l.length) (Nat.succ_pos i)
    have hi2 : i < l.length := Nat.lt_of_succ_lt_succ hi
    have ih := find_first_of_earlier_fail p l i hi2 hp (fun j hj hji =>
      hprev (j + 1) (Nat.succ_lt_succ hj) (Nat.succ_lt_succ hji))
    simp [List.find?, ha]
    exact ih

/-- C8: the country substring step is deterministic: when the normalized
location contains several country keys, the selected entry is the first
matching one in the declaration order of the table, usa through
south africa. -/
theorem country_tiebreak_declaration_order (loc : String) (i : Nat)
    (hi : i < countryCoordinates.length)
    (hmatch : strContains loc (countryCoordinates.get ⟨i, hi⟩).1 = true)
    (hfirst : ∀ j (hj : j < countryCoordinates.length), j < i →
       strContains loc (countryCoordinates.get ⟨j, hj⟩).1 = false) :
    countryFind loc = some (countryCoordinates.get ⟨i, hi⟩) :=
  find_first_of_earlier_fail (fun q : String × ℚ × ℚ => strContains loc q.1)
    countryCoordinates i hi hmatch hfirst

/-- Witness for C8: a location containing both usa and canada resolves to
usa, the earlier table entry. -/
theorem country_tiebreak_declaration_order_witness :
    countryFind "usa and canada" = some ("usa", (-95.7129, 37.0902)) :=
  country_tiebreak_declaration_order "usa and canada" 0 (by decide) (by decide)
    (fun j hj hji => absurd hji (Nat.not_lt_zero j))

/-- C9 counterexample: the label Asia Pacific has no synonym list, the
stored region Asia Pacific Region contains it case-insensitively as a
substring, yet the filter does not match it, because the fallback of the
code is insensitive equality and not insensitive containment. -/
theorem region_filter_fallback_counterexample :
    alookup "Asia Pacific" regionMappings = none ∧
    ¬ (regionFilterMatches "Asia Pacific" "Asia Pacific Region" = true ↔
       containsInsensitive "Asia Pacific Region" "Asia Pacific" = true) := by
  decide

/-- C9 amended: the requested label Middle East is rewritten to MENA before
matching, and for every requested region with no recognized synonym list an
item matches if and only if the stored region string equals the requested
value case-insensitively. -/
theorem region_filter_fallback_equals (requested stored : String) :
    (regionFilterMatches "Middle East" stored = regionFilterMatches "MENA" stored) ∧
    (alookup (if requested = "Middle East" then "MENA" else requested) regionMappings = none →
      (regionFilterMatches requested stored = true ↔ eqInsensitive stored requested = true)) := by
  constructor
  · rfl
  · intro hmap
    by_cases hreq : requested = "Middle East"
    · subst hreq
      rw [if_pos rfl] at hmap
      exact absurd hmap (by decide)
    · rw [if_neg hreq] at hmap
      simp [regionFilterMatches, hreq, hmap]

/-- Witness for C9 amended: an unrecognized region matches a stored string
that differs only in case. -/
theorem region_filter_fallback_equals_witness :
    regionFilterMatches "Somewhere" "somewhere" = true :=
  ((region_filter_fallback_equals "Somewhere" "somewhere").2 (by decide)).mpr (by decide)

/-- C10: two items whose location strings differ (for instance only in
letter case) but normalize to the same city table key produce two distinct
buckets, one per original-cased string, with identical coordinates and one
item each; they are not merged. -/
theorem case_preserving_buckets (it1 it2 : NewsItem) (s1 s2 : String)
    (c : ℚ × ℚ)
    (h1 : locOf (parsedDetails it1.details) = Except.ok (some s1))
    (h2 : locOf (parsedDetails it2.details) = Except.ok (some s2))
    (hne : s1 ≠ s2)
    (hnorm : normalizeLoc s1 = normalizeLoc s2)
    (hcity : alookup (normalizeLoc s1) cityCoordinates = some c) :
    resolve [it1, it2] = Except.ok
      ([{count := 1, maxThreat := max 0 it1.threatLevel, name := s1, coordinates := c},
        {count := 1, maxThreat := max 0 it2.threatLevel, name := s2, coordinates := c}], 0) := by
  have ht1 : itemTarget it1 = Except.ok (some (s1, c)) :=
    (resolution_order it1 s1 h1).1 c hcity
  have ht2 : itemTarget it2 = Except.ok (some (s2, c)) :=
    (resolution_order it2 s2 h2).1 c (hnorm ▸ hcity)
  simp [resolve, runItems, processItem, ht1, ht2, addToStats, alookup, bumpFirst,
    updateBucket, hne]

/-- Witness for C10: Tokyo in two casings yields two buckets at the same
coordinates. -/
theorem case_preserving_buckets_witness :
    resolve [⟨none, some (Json.obj [("location", Json.str "Tokyo, Japan")]), 2⟩,
             ⟨none, some (Json.obj [("location", Json.str "TOKYO, JAPAN")]), 4⟩] =
      Except.ok
        ([{count := 1, maxThreat := 2, name := "Tokyo, Japan", coordinates := (139.6917, 35.6895)},
          {count := 1, maxThreat := 4, name := "TOKYO, JAPAN", coordinates := (139.6917, 35.6895)}], 0) :=
  case_preserving_buckets
    ⟨none, some (Json.obj [("location", Json.str "Tokyo, Japan")]), 2⟩
    ⟨none, some (Json.obj [("location", Json.str "TOKYO, JAPAN")]), 4⟩
    "Tokyo, Japan" "TOKYO, JAPAN" (139.6917, 35.6895)
    (by rfl) (by rfl) (by decide) (by rfl) (by rfl)

end NewsMap
